import Mathlib

/-!
Verification of the settlement core of scroll-tech/revm: the bytecode
analyzer, the account/storage ledger model, the L1 fee oracle and the
settlement handlers. Each Rust source function is shallowly embedded as an
executable Lean definition; machine integers are modelled as `Nat` with
explicit reductions modulo `2 ^ w` (or explicit saturation) exactly where
the Rust types wrap or saturate. Fallible operations return `Option` or
`Except`; a `none` models a panic or divergence of the Rust code.
-/

set_option maxRecDepth 10000

namespace Revm

/-! ## Primitives: 256-bit arithmetic (`U256`)

`U256` values are embedded as natural numbers below `2 ^ 256`. The
saturating operations mirror `U256::saturating_add` / `saturating_mul`;
plain `*` on `U256` wraps in a release build, hence the explicit modulus.
-/

def U256_MAX : Nat := 2 ^ 256 - 1

def satAdd256 (a b : Nat) : Nat := min (a + b) U256_MAX

def satMul256 (a b : Nat) : Nat := min (a * b) U256_MAX

def wrapMul256 (a b : Nat) : Nat := (a * b) % 2 ^ 256

/-- `u64::saturating_add` -/
def satAdd64 (a b : Nat) : Nat := min (a + b) (2 ^ 64 - 1)

/-! ## Ledger model — `crates/primitives/src/state.rs`

`AccountStatus` is a `bitflags` set of five independent bits; it is
embedded as a record of five booleans (one field per declared flag).
`Loaded` is the empty set. The `code_hash` fields (`B256`) are embedded as
natural numbers; the all-zero sentinel is `0` and the canonical
empty-code hash constant of the configured hashing scheme
(`POSEIDON_EMPTY` under `scroll-poseidon-codehash`, `KECCAK_EMPTY`
otherwise) is kept abstract as an explicit argument `emptyHash`, since its
numeric value never matters to the logic, only equality with it.
-/

structure AccountStatus where
  created : Bool
  selfDestructed : Bool
  touched : Bool
  loadedAsNotExisting : Bool
  cold : Bool
deriving DecidableEq, Repr

def AccountStatus.Loaded : AccountStatus :=
  ⟨false, false, false, false, false⟩

/-- `AccountInfo` (features `scroll` and `scroll-poseidon-codehash` on:
`code_size` and `keccak_code_hash` present). The optional cached
`code : Option<Bytecode>` is an accelerant not used by any claim and is
omitted. -/
structure AccountInfo where
  balance : Nat
  nonce : Nat
  code_size : Nat
  code_hash : Nat
  keccak_code_hash : Nat
deriving DecidableEq, Repr

/-- `EvmStorageSlot` -/
structure EvmStorageSlot where
  original_value : Nat
  present_value : Nat
  is_cold : Bool
deriving DecidableEq, Repr

/-- `EvmStorageSlot::is_changed` -/
def EvmStorageSlot.is_changed (s : EvmStorageSlot) : Bool :=
  s.original_value != s.present_value

/-- `EvmStorageSlot::mark_cold` -/
def EvmStorageSlot.mark_cold (s : EvmStorageSlot) : EvmStorageSlot :=
  { s with is_cold := true }

/-- `EvmStorageSlot::mark_warm`: `core::mem::replace(&mut self.is_cold, false)`
returns the previous flag and clears it. -/
def EvmStorageSlot.mark_warm (s : EvmStorageSlot) : Bool × EvmStorageSlot :=
  (s.is_cold, { s with is_cold := false })

/-- `Account`: info + storage cache + status flags. The storage `HashMap`
is embedded as an association list of (key, slot) pairs. -/
structure Account where
  info : AccountInfo
  storage : List (Nat × EvmStorageSlot)
  status : AccountStatus
deriving DecidableEq, Repr

/-- `Account::mark_selfdestruct`: `status |= SelfDestructed` -/
def Account.mark_selfdestruct (a : Account) : Account :=
  { a with status.selfDestructed := true }

/-- `Account::unmark_selfdestruct`: `status -= SelfDestructed` -/
def Account.unmark_selfdestruct (a : Account) : Account :=
  { a with status.selfDestructed := false }

/-- `Account::mark_touch`: `status |= Touched` -/
def Account.mark_touch (a : Account) : Account :=
  { a with status.touched := true }

/-- `Account::unmark_touch`: `status -= Touched` -/
def Account.unmark_touch (a : Account) : Account :=
  { a with status.touched := false }

/-- `Account::is_touched` -/
def Account.is_touched (a : Account) : Bool :=
  a.status.touched

/-- `Account::mark_created` -/
def Account.mark_created (a : Account) : Account :=
  { a with status.created := true }

/-- `Account::mark_cold`: `status |= Cold` -/
def Account.mark_cold (a : Account) : Account :=
  { a with status.cold := true }

/-- `Account::mark_warm`: if the `Cold` bit is set, remove it and return
`true`; otherwise return `false`. -/
def Account.mark_warm (a : Account) : Bool × Account :=
  if a.status.cold then
    (true, { a with status.cold := false })
  else
    (false, a)

/-- `AccountInfo::is_empty` (debug assertions elided): code hash equals
the configured scheme's empty-code constant or the all-zero sentinel, and
balance and nonce are zero. -/
def AccountInfo.is_empty (emptyHash : Nat) (info : AccountInfo) : Bool :=
  (info.code_hash == emptyHash || info.code_hash == 0)
    && info.balance == 0 && info.nonce == 0

/-- `Account::is_empty` delegates to `AccountInfo::is_empty`. -/
def Account.is_empty (emptyHash : Nat) (a : Account) : Bool :=
  a.info.is_empty emptyHash

/-- `Account::changed_storage_slots`: the slots whose present value
differs from the original value. -/
def Account.changed_storage_slots (a : Account) : List (Nat × EvmStorageSlot) :=
  a.storage.filter (fun kv => kv.2.is_changed)

/-! ## L1 fee oracle — `crates/revm/src/scroll/l1block.rs`

Bytes are embedded as `Fin 256`; a payload is a `List (Fin 256)`. The
storage reader (`Database::storage`) is embedded as a function from
(address, slot index) to `Except DBE`-wrapped 256-bit word. -/

def ZERO_BYTE_COST : Nat := 4

def NON_ZERO_BYTE_COST : Nat := 16

def TX_L1_COMMIT_EXTRA_COST : Nat := 64

def TX_L1_FEE_PRECISION : Nat := 1000000000

/-- `L1_GAS_PRICE_ORACLE_ADDRESS = 0x5300000000000000000000000000000000000002`,
as the numeric value of the 20-byte address. -/
def L1_GAS_PRICE_ORACLE_ADDRESS : Nat :=
  0x5300000000000000000000000000000000000002

def L1_BASE_FEE_SLOT : Nat := 1

def L1_OVERHEAD_SLOT : Nat := 2

def L1_SCALAR_SLOT : Nat := 3

structure L1BlockInfo where
  l1_base_fee : Nat
  l1_fee_overhead : Nat
  l1_base_fee_scalar : Nat
deriving DecidableEq, Repr

/-- `L1BlockInfo::try_fetch`: read slots 1, 2, 3 of the gas-price oracle
address; each `?` propagates the database error unchanged. -/
def L1BlockInfo.try_fetch {DBE : Type} (db : Nat → Nat → Except DBE Nat) :
    Except DBE L1BlockInfo :=
  match db L1_GAS_PRICE_ORACLE_ADDRESS L1_BASE_FEE_SLOT with
  | .error e => .error e
  | .ok l1_base_fee =>
    match db L1_GAS_PRICE_ORACLE_ADDRESS L1_OVERHEAD_SLOT with
    | .error e => .error e
    | .ok l1_fee_overhead =>
      match db L1_GAS_PRICE_ORACLE_ADDRESS L1_SCALAR_SLOT with
      | .error e => .error e
      | .ok l1_base_fee_scalar =>
        .ok ⟨l1_base_fee, l1_fee_overhead, l1_base_fee_scalar⟩

/-- `L1BlockInfo::data_gas`: fold over the payload with a `u64`
accumulator, adding 4 per zero byte and 16 per non-zero byte; the `u64`
addition wraps (release build), hence the per-step modulus. The result is
then widened to `U256` (`U256::from`). `self` is unused by the source
body. -/
def L1BlockInfo.data_gas (_self : L1BlockInfo) (input : List (Fin 256)) : Nat :=
  input.foldl
    (fun acc byte =>
      (acc + if byte.val = 0 then ZERO_BYTE_COST else NON_ZERO_BYTE_COST) % 2 ^ 64)
    0

/-- `L1BlockInfo::calculate_tx_l1_cost`:
`data_gas(input).saturating_add(overhead).saturating_add(64)
  .saturating_mul(base_fee).saturating_mul(scalar)
  .wrapping_div(1_000_000_000)` — the divisor is a nonzero constant, so
`wrapping_div` is plain truncating division. -/
def L1BlockInfo.calculate_tx_l1_cost (self : L1BlockInfo) (input : List (Fin 256)) :
    Nat :=
  let tx_l1_gas := self.data_gas input
  satMul256
      (satMul256 (satAdd256 (satAdd256 tx_l1_gas self.l1_fee_overhead)
          TX_L1_COMMIT_EXTRA_COST)
        self.l1_base_fee)
      self.l1_base_fee_scalar
    / TX_L1_FEE_PRECISION

/-- The ideal (unbounded) per-byte data-gas sum, as the specification
words it: 4 per zero byte, 16 per non-zero byte. -/
def idealDataGas (input : List (Fin 256)) : Nat :=
  (input.map (fun byte => if byte.val = 0 then 4 else 16)).sum

/-- The formula of the specification for `calculate_tx_l1_cost`, with
`data_gas` as the exact (unbounded) per-byte sum of 4 per zero byte and
16 per non-zero byte. Stated for comparison with the source function. -/
def specL1Cost (self : L1BlockInfo) (input : List (Fin 256)) : Nat :=
  satMul256
      (satMul256 (satAdd256 (satAdd256 (idealDataGas input) self.l1_fee_overhead)
          64)
        self.l1_base_fee)
      self.l1_base_fee_scalar
    / 1000000000

/-! ## Bytecode analyzer — `crates/revm/src/interpreter/bytecode.rs`

The analyzer consumes a per-fork opcode table (`spec_opcode_gas`), an
array of 256 `OpInfo` entries indexed by opcode value. -/

/-- Modelled from the spec: one entry of the external opcode cost table
(`OpInfo` of the fork-specification module, not under `src/`): base gas
cost (`get_gas`, a `u32`), the push-class flag (`is_push`), the
gas-block-end flag (`is_gas_block_end`) and the jump-destination flag
(`is_jump`). -/
structure OpInfo where
  gas : Nat
  isPush : Bool
  isGasBlockEnd : Bool
  isJump : Bool
deriving DecidableEq, Repr

/-- A valid opcode table in the claims' sense: one entry per possible
opcode value. -/
def OpTable : Type := Fin 256 → OpInfo

/-- Modelled from the spec: one per-position entry of the analysis table
(`AnalysisData` of `interpreter/contract.rs`, not under `src/`): a
jump-destination bit and the accumulated gas total of the straight-line
block starting at this position, with `none()` as the all-clear value and
`set_is_jump` / `set_gas_block` as the two setters used by `analyze`. -/
structure AnalysisData where
  is_jump : Bool
  gas_block : Nat
deriving DecidableEq, Repr

def AnalysisData.noneData : AnalysisData := ⟨false, 0⟩

def AnalysisData.set_is_jump (d : AnalysisData) : AnalysisData :=
  { d with is_jump := true }

def AnalysisData.set_gas_block (d : AnalysisData) (g : Nat) : AnalysisData :=
  { d with gas_block := g }

/-- Modelled from the spec: `ValidJumpAddress` (of
`interpreter/contract.rs`, not under `src/`): the first gas block charged
before any instruction executes, plus the per-position analysis table. -/
structure ValidJumpAddress where
  first_gas_block : Nat
  analysis : List AnalysisData
deriving DecidableEq, Repr

/-- `jumps.get_mut(i).unwrap()` followed by a mutation: `none` models the
out-of-bounds panic. -/
def setAt (jumps : List AnalysisData) (i : Nat)
    (f : AnalysisData → AnalysisData) : Option (List AnalysisData) :=
  match jumps.get? i with
  | some d => some (jumps.set i (f d))
  | none => none

/-- The scan advance of a push-class instruction:
`((opcode - opcode::PUSH1) + 2) as usize` in wrapping `u8` arithmetic
(`PUSH1 = 0x60`), i.e. `(opcode + 162) % 256`. For the real push opcodes
`0x60..=0x7f` this is the declared operand width plus one (2 to 33). -/
def pushAdvance (opcode : Nat) : Nat := (opcode + 162) % 256

/-- First loop of `Bytecode::analyze` (the "first gas block" scan),
accumulating `first_gas_block` (a wrapping `u32`) until the first
gas-block-end instruction or the end of the code. The fuel argument
decreases every iteration; exhausting it models divergence of the Rust
loop (possible only when a push-class advance is zero). Returns
`(first_gas_block, index, block_start, jumps)`. `block_start` is
`index - 1` in `usize` arithmetic at the `break`; in every regime
considered below the `break` follows an advance of exactly one, so the
`Nat` subtraction agrees with the `usize` one. -/
def analyzePhase1 (tbl : OpTable) (code : List (Fin 256)) :
    Nat → Nat → Nat → List AnalysisData →
      Option (Nat × Nat × Nat × List AnalysisData)
  | 0, _, _, _ => none
  | fuel + 1, index, first_gas_block, jumps =>
    if h : index < code.length then
      let opcode := code.get ⟨index, h⟩
      let info := tbl opcode
      let fgb := (first_gas_block + info.gas) % 2 ^ 32
      let index' := index + (if info.isPush then pushAdvance opcode.val else 1)
      if info.isGasBlockEnd then
        let block_start := index' - 1
        if info.isJump then
          match setAt jumps block_start AnalysisData.set_is_jump with
          | some jumps' => some (fgb, index', block_start, jumps')
          | none => none
        else
          some (fgb, index', block_start, jumps)
      else
        analyzePhase1 tbl code fuel index' fgb jumps
    else
      some (first_gas_block, index, 0, jumps)

/-- Second loop of `Bytecode::analyze`: accumulate `gas_in_block`
(wrapping `u32`); on a gas-block-end instruction, flag the position if it
is a jump destination, finalize the open block's total at `block_start`,
and open a new block here. Returns `(block_start, gas_in_block, jumps)`.
-/
def analyzePhase2 (tbl : OpTable) (code : List (Fin 256)) :
    Nat → Nat → Nat → Nat → List AnalysisData →
      Option (Nat × Nat × List AnalysisData)
  | 0, _, _, _, _ => none
  | fuel + 1, index, block_start, gas_in_block, jumps =>
    if h : index < code.length then
      let opcode := code.get ⟨index, h⟩
      let info := tbl opcode
      let gib := (gas_in_block + info.gas) % 2 ^ 32
      if info.isGasBlockEnd then
        let afterFlag :=
          if info.isJump then setAt jumps index AnalysisData.set_is_jump
          else some jumps
        match afterFlag with
        | none => none
        | some jumps' =>
          match setAt jumps' block_start (fun d => d.set_gas_block gib) with
          | none => none
          | some jumps'' =>
            analyzePhase2 tbl code fuel (index + 1) index 0 jumps''
      else
        analyzePhase2 tbl code fuel
          (index + (if info.isPush then pushAdvance opcode.val else 1))
          block_start gib jumps
    else
      some (block_start, gas_in_block, jumps)

/-- `Bytecode::analyze`: allocate one `AnalysisData::none()` entry per
byte of the (padded) input buffer, run the two scan loops, and finalize
any trailing partial block. `none` models a panic or divergence of the
Rust function. -/
def analyze (tbl : OpTable) (code : List (Fin 256)) : Option ValidJumpAddress :=
  let jumps0 := List.replicate code.length AnalysisData.noneData
  match analyzePhase1 tbl code (code.length + 1) 0 0 jumps0 with
  | none => none
  | some (fgb, index, block_start, jumps1) =>
    match analyzePhase2 tbl code (code.length + 1) index block_start 0 jumps1 with
    | none => none
    | some (block_start', gas_in_block, jumps2) =>
      if gas_in_block ≠ 0 then
        match setAt jumps2 block_start' (fun d => d.set_gas_block gas_in_block) with
        | some jumps3 => some ⟨fgb, jumps3⟩
        | none => none
      else
        some ⟨fgb, jumps2⟩

/-- `BytecodeState`. -/
inductive BytecodeState where
  | Raw : BytecodeState
  | Checked (len : Nat) : BytecodeState
  | Analysed (len : Nat) (jumptable : ValidJumpAddress) : BytecodeState
deriving DecidableEq, Repr

/-- `Bytecode`. The two content-derived identity hashes (`hash`,
`keccak_hash`) are computed by external digest libraries (poseidon hash
circuit, keccak) outside `src/`; they are carried unchanged by every
state transition and interact with none of the analysis claims, so they
are omitted from the embedding. -/
structure Bytecode where
  bytecode : List (Fin 256)
  state : BytecodeState
deriving DecidableEq, Repr

/-- `Bytecode::new_raw`. -/
def Bytecode.new_raw (bytes : List (Fin 256)) : Bytecode :=
  ⟨bytes, .Raw⟩

/-- `Bytecode::len`: the logical code length. -/
def Bytecode.len (b : Bytecode) : Nat :=
  match b.state with
  | .Raw => b.bytecode.length
  | .Checked len => len
  | .Analysed len _ => len

/-- `Bytecode::to_checked`: no-op unless `Raw`; otherwise
`bytecode.resize(len + 33, 0)` appends 33 zero bytes after the logical
length. -/
def Bytecode.to_checked (b : Bytecode) : Bytecode :=
  match b.state with
  | .Raw =>
    ⟨b.bytecode ++ List.replicate 33 (0 : Fin 256),
      .Checked b.bytecode.length⟩
  | _ => b

/-- `Bytecode::to_analysed`: force through `to_checked` when `Raw`, then
run `analyze` on the (padded) buffer, keeping the logical length in the
state. `none` models a panic or divergence of `analyze`. -/
def Bytecode.to_analysed (tbl : OpTable) (b : Bytecode) : Option Bytecode :=
  match b.state with
  | .Raw =>
    let len := b.bytecode.length
    let checked := b.to_checked
    (analyze tbl checked.bytecode).map
      (fun jumptable => ⟨checked.bytecode, .Analysed len jumptable⟩)
  | .Checked len =>
    (analyze tbl b.bytecode).map
      (fun jumptable => ⟨b.bytecode, .Analysed len jumptable⟩)
  | .Analysed _ _ => some b

/-- Modelled from the spec: the fragment of the per-fork opcode cost
table (`spec_opcode_gas`, external to `src/`) needed by the examples.
Halting instructions (here `STOP = 0x00`) and the jump instructions
`JUMP = 0x56` / `JUMPI = 0x57` end gas blocks; `JUMPDEST = 0x5b` ends a
gas block and is the only jump-destination instruction; `PUSH1..PUSH32`
(`0x60..=0x7f`) are the push-class instructions carrying 1 to 32
immediate operand bytes. Every other opcode is an ordinary one-byte
instruction. Gas costs are the standard base costs; their exact values
are irrelevant to the jump-destination claims. -/
def realTable : OpTable := fun op =>
  if op.val = 0x00 then ⟨0, false, true, false⟩
  else if op.val = 0x56 then ⟨8, false, true, false⟩
  else if op.val = 0x57 then ⟨10, false, true, false⟩
  else if op.val = 0x5b then ⟨1, false, true, true⟩
  else if 0x60 ≤ op.val ∧ op.val ≤ 0x7f then ⟨3, true, false, false⟩
  else ⟨3, false, false, false⟩

/-- The side condition on an opcode table under which the analysis scan
is well behaved: push-class opcodes never end a gas block and lie at or
above `PUSH1 = 0x60` (so their scan advance is at least two). Every real
fork table satisfies this. -/
def PushSane (tbl : OpTable) : Prop :=
  ∀ op : Fin 256, (tbl op).isPush = true →
    (tbl op).isGasBlockEnd = false ∧ 0x60 ≤ op.val

instance (tbl : OpTable) : Decidable (PushSane tbl) := by
  unfold PushSane
  infer_instance

/-- An opcode table with one entry per possible opcode value — "valid"
in the claims' sense — that nevertheless classifies opcode `0x00` as
simultaneously push-class, gas-block-ending and a jump destination. -/
def badTable : OpTable := fun op =>
  if op.val = 0 then ⟨0, true, true, true⟩ else ⟨0, false, false, false⟩

/-- The jump-destination flag column of the analysis table produced by
running a raw byte sequence through `to_checked` then `to_analysed`. -/
def jumpdestFlags (tbl : OpTable) (bytes : List (Fin 256)) :
    Option (List Bool) :=
  ((Bytecode.new_raw bytes).to_checked.to_analysed tbl).bind fun bc =>
    match bc.state with
    | .Analysed _ jumptable => some (jumptable.analysis.map (·.is_jump))
    | _ => Option.none

/-! ## Settlement handlers — `crates/revm/src/scroll/handler_register.rs`

Addresses are embedded as natural numbers. `u64` quantities are natural
numbers with explicit wrap/saturation at `2 ^ 64`; the `i64` refund
counter is an `Int` and its `as u64` cast is the two's-complement
residue. -/

inductive TransactTo where
  | Call (address : Nat)
  | Create
deriving DecidableEq, Repr

/-- The scroll-specific transaction fields read by the handlers:
the privileged-L1-message marker and the optional RLP payload bytes. -/
structure ScrollFields where
  is_l1_msg : Bool
  rlp_bytes : Option (List (Fin 256))
deriving DecidableEq, Repr

/-- `TxEnv`, reduced to the fields the settlement handlers read. -/
structure TxEnv where
  caller : Nat
  gas_limit : Nat
  transact_to : TransactTo
  scroll : ScrollFields
deriving DecidableEq, Repr

/-- `BlockEnv`, reduced to the fields the settlement handlers read. -/
structure BlockEnv where
  coinbase : Nat
deriving DecidableEq, Repr

/-- `Env`, reduced to the fields the settlement handlers read.
`effective_gas_price()` is carried as a precomputed value (its derivation
from the gas price and priority fee lives outside `src/`). -/
structure Env where
  tx : TxEnv
  block : BlockEnv
  effective_gas_price : Nat
deriving DecidableEq, Repr

/-- `Gas`: the spent counter (`u64`) and the refunded counter (`i64`). -/
structure Gas where
  spent : Nat
  refunded : Int
deriving DecidableEq, Repr

/-- The `as u64` cast of the `i64` refund counter. -/
def i64_as_u64 (r : Int) : Nat := (r % 2 ^ 64).toNat

/-- Wrapping `u64` subtraction (`gas.spent() - gas.refunded() as u64`
wraps in a release build). -/
def wrapSub64 (a b : Nat) : Nat := (a % 2 ^ 64 + 2 ^ 64 - b % 2 ^ 64) % 2 ^ 64

inductive InvalidTransaction where
  | LackOfFundForMaxFee (fee : Nat) (balance : Nat)
deriving DecidableEq, Repr

/-- `EVMError`, reduced to the variants the modelled handler slice can
produce. The `Database` variant arises only from `load_account`, whose
success is a precondition of the context model below. -/
inductive EVMError where
  | Transaction (err : InvalidTransaction)
  | Custom (msg : String)
deriving DecidableEq, Repr

/-- The slice of the EVM context the two settlement handlers touch: the
environment, the journalled caller and coinbase accounts (their
`load_account` reads are taken as already succeeded — a database failure
would have been propagated before any logic modelled here runs), and the
optionally fetched L1 block info. -/
structure Context where
  env : Env
  caller_account : Account
  coinbase_account : Account
  l1_block_info : Option L1BlockInfo
deriving DecidableEq, Repr

/-- Modelled from the spec: the mainnet `deduct_caller_inner` helper
(`handler/mainnet`, not under `src/`), as the specification describes the
deduction step: subtract the gas cost `gas_limit × effective_gas_price`
(saturating multiplication, saturating subtraction) from the caller's
balance, increment the nonce by exactly 1 for call-type transactions
(contract-creation nonce handling lives in the create path), and mark
the account touched. It performs no balance-sufficiency check — the
specification assigns the gas-cost balance check to pre-validation — and
it cannot fail (the caller in `src/` invokes it with no error channel).
The blob/data fee of later forks does not exist on this chain. -/
def deduct_caller_inner (env : Env) (acc : Account) : Account :=
  let gas_cost := satMul256 env.tx.gas_limit env.effective_gas_price
  let acc1 := { acc with info.balance := acc.info.balance - gas_cost }
  let acc2 :=
    match env.tx.transact_to with
    | .Call _ => { acc1 with info.nonce := satAdd64 acc1.info.nonce 1 }
    | .Create => acc1
  acc2.mark_touch

/-- `deduct_caller` (scroll handler): for ordinary transactions, first
apply the mainnet deduction (`deduct_caller_inner`), then require the
transaction's RLP payload (`Custom` error when absent), compute the L1
data fee — the `expect` on an unfetched `l1_block_info` is a panic,
modelled as the outer `none` — and fail with `LackOfFundForMaxFee` when
it exceeds the remaining balance, else subtract it (saturating). For
privileged L1 messages skip all fee logic, bump the nonce (saturating)
for call-type transactions, and mark the account touched. -/
def deduct_caller (ctx : Context) : Option (Except EVMError Context) :=
  let acc := ctx.caller_account
  if ¬ ctx.env.tx.scroll.is_l1_msg then
    let acc := deduct_caller_inner ctx.env acc
    match ctx.env.tx.scroll.rlp_bytes with
    | Option.none =>
      some (.error (.Custom "[SCROLL] Failed to load transaction rlp_bytes."))
    | some rlp_bytes =>
      match ctx.l1_block_info with
      | Option.none => Option.none
      | some l1_block_info =>
        let tx_l1_cost := l1_block_info.calculate_tx_l1_cost rlp_bytes
        if tx_l1_cost > acc.info.balance then
          some (.error (.Transaction
            (.LackOfFundForMaxFee tx_l1_cost acc.info.balance)))
        else
          some (.ok { ctx with caller_account :=
            { acc with info.balance := acc.info.balance - tx_l1_cost } })
  else
    let acc1 :=
      match ctx.env.tx.transact_to with
      | .Call _ => { acc with info.nonce := satAdd64 acc.info.nonce 1 }
      | .Create => acc
    some (.ok { ctx with caller_account := acc1.mark_touch })

/-- `reward_beneficiary` (scroll handler, `handler_register.rs`): for
ordinary transactions, require the fetched L1 block info and the RLP
payload (`Custom` error when either is absent), mark the coinbase
touched, and credit
`effective_gas_price * (gas.spent() - gas.refunded() as u64)` plus the
L1 cost (both additions saturating; the `U256` multiplication and the
`u64` subtraction wrap). For privileged L1 messages do nothing at all. -/
def reward_beneficiary (ctx : Context) (gas : Gas) : Except EVMError Context :=
  let coinbase_gas_price := ctx.env.effective_gas_price
  let acc := ctx.coinbase_account
  if ¬ ctx.env.tx.scroll.is_l1_msg then
    match ctx.l1_block_info with
    | Option.none =>
      .error (.Custom "[SCROLL] Failed to load L1 block information.")
    | some l1_block_info =>
      match ctx.env.tx.scroll.rlp_bytes with
      | Option.none =>
        .error (.Custom "[SCROLL] Failed to load transaction rlp_bytes.")
      | some rlp_bytes =>
        let l1_cost := l1_block_info.calculate_tx_l1_cost rlp_bytes
        let acc1 := acc.mark_touch
        let newBalance :=
          satAdd256
            (satAdd256 acc1.info.balance
              (wrapMul256 coinbase_gas_price
                (wrapSub64 gas.spent (i64_as_u64 gas.refunded))))
            l1_cost
        let acc2 := { acc1 with info.balance := newBalance }
        .ok { ctx with coinbase_account := acc2 }
  else
    .ok ctx

/-- A concrete context for the insufficient-funds scenario of the
specification's test table: balance 100 → 40 variant, gas limit 10,
effective gas price 5, zero L1 fee parameters, ordinary call
transaction. -/
def ctxInsufficient : Context :=
  { env :=
      { tx :=
          { caller := 7
            gas_limit := 10
            transact_to := .Call 3
            scroll := { is_l1_msg := false, rlp_bytes := some [] } }
        block := { coinbase := 9 }
        effective_gas_price := 5 }
    caller_account :=
      { info := { balance := 40, nonce := 0, code_size := 0, code_hash := 0,
                  keccak_code_hash := 0 }
        storage := []
        status := AccountStatus.Loaded }
    coinbase_account :=
      { info := { balance := 0, nonce := 0, code_size := 0, code_hash := 0,
                  keccak_code_hash := 0 }
        storage := []
        status := AccountStatus.Loaded }
    l1_block_info := some ⟨0, 0, 0⟩ }

/-- A concrete context for a privileged rollup-originated (L1) message
with a coinbase account that is not yet touched. -/
def ctxL1Msg : Context :=
  { env :=
      { tx :=
          { caller := 7
            gas_limit := 10
            transact_to := .Call 3
            scroll := { is_l1_msg := true, rlp_bytes := some [] } }
        block := { coinbase := 9 }
        effective_gas_price := 5 }
    caller_account :=
      { info := { balance := 40, nonce := 0, code_size := 0, code_hash := 0,
                  keccak_code_hash := 0 }
        storage := []
        status := AccountStatus.Loaded }
    coinbase_account :=
      { info := { balance := 11, nonce := 0, code_size := 0, code_hash := 0,
                  keccak_code_hash := 0 }
        storage := []
        status := AccountStatus.Loaded }
    l1_block_info := some ⟨1, 2, 3⟩ }

/-! ## Disabled precompiles — `crates/precompile/src/disable.rs` -/

/-- `PrecompileError`, reduced to the variant the disabled stub
produces. -/
inductive PrecompileError where
  | OutOfGas
deriving DecidableEq, Repr

/-- A precompile outcome: on success, the gas used and the output
bytes. -/
def PrecompileResult : Type :=
  Except PrecompileError (Nat × List (Fin 256))

/-- `u64_to_address`: embeds a `u64` into the 20-byte address space. -/
def u64_to_address (x : Nat) : Nat := x % 2 ^ 64

/-- `disable_run`: always `Err(PrecompileError::OutOfGas)`, ignoring the
input and the gas limit. -/
def disable_run (_input : List (Fin 256)) (_gas_limit : Nat) : PrecompileResult :=
  .error .OutOfGas

/-- `PrecompileWithAddress`: an address paired with the precompile
function registered at it. -/
structure PrecompileWithAddress where
  address : Nat
  precompile : List (Fin 256) → Nat → PrecompileResult

def RIPEMD160 : PrecompileWithAddress :=
  ⟨u64_to_address 0x03, disable_run⟩

def BLAKE2F : PrecompileWithAddress :=
  ⟨u64_to_address 0x09, disable_run⟩

def POINT_EVALUATION : PrecompileWithAddress :=
  ⟨u64_to_address 0x0A, disable_run⟩

end Revm

namespace Revm

/-! ## Claim theorems for the ledger model -/

/-- C8: `Account::is_empty()` returns true iff balance = 0, nonce = 0 and
the code hash equals the configured scheme's canonical empty-code
constant or the all-zero sentinel; it is false whenever any of the three
conditions fails. -/
theorem account_is_empty_iff (emptyHash : Nat) (a : Account) :
    (a.is_empty emptyHash = true ↔
      a.info.balance = 0 ∧ a.info.nonce = 0 ∧
        (a.info.code_hash = emptyHash ∨ a.info.code_hash = 0)) ∧
    (a.info.balance ≠ 0 ∨ a.info.nonce ≠ 0 ∨
        ¬(a.info.code_hash = emptyHash ∨ a.info.code_hash = 0) →
      a.is_empty emptyHash = false) := by
  constructor
  · simp only [Account.is_empty, AccountInfo.is_empty, Bool.and_eq_true,
      Bool.or_eq_true, beq_iff_eq]
    tauto
  · intro h
    simp only [Account.is_empty, AccountInfo.is_empty, Bool.and_eq_true,
      Bool.or_eq_true, beq_iff_eq, Bool.eq_false_iff, ne_eq]
    tauto

/-! ## Helper lemmas for the fee oracle -/

lemma idealDataGas_nil : idealDataGas [] = 0 := rfl

lemma idealDataGas_cons (b : Fin 256) (l : List (Fin 256)) :
    idealDataGas (b :: l) = (if b.val = 0 then 4 else 16) + idealDataGas l := by
  simp [idealDataGas]

lemma idealDataGas_le (l : List (Fin 256)) : idealDataGas l ≤ 16 * l.length := by
  induction l with
  | nil => simp [idealDataGas]
  | cons b l ih =>
    rw [idealDataGas_cons]
    have hb : (if b.val = 0 then 4 else 16) ≤ 16 := by split <;> omega
    simp only [List.length_cons]
    omega

lemma idealDataGas_replicate (n : Nat) :
    idealDataGas (List.replicate n (1 : Fin 256)) = 16 * n := by
  have h1 : ((1 : Fin 256)).val = 1 := rfl
  simp [idealDataGas, List.map_replicate, List.sum_replicate, h1, smul_eq_mul,
    Nat.mul_comm]

/-- Below the `u64` bound the wrapping data-gas fold computes the ideal sum. -/
lemma data_gas_foldl_eq (l : List (Fin 256)) (a : Nat)
    (h : a + idealDataGas l < 2 ^ 64) :
    l.foldl
        (fun acc byte =>
          (acc + if byte.val = 0 then ZERO_BYTE_COST else NON_ZERO_BYTE_COST)
            % 2 ^ 64)
        a
      = a + idealDataGas l := by
  induction l generalizing a with
  | nil => simp [idealDataGas]
  | cons b l ih =>
    rw [idealDataGas_cons] at h
    have hcost :
        (if b.val = 0 then ZERO_BYTE_COST else NON_ZERO_BYTE_COST)
          = (if b.val = 0 then 4 else 16) := by
      simp [ZERO_BYTE_COST, NON_ZERO_BYTE_COST]
    have hstep :
        (a + if b.val = 0 then ZERO_BYTE_COST else NON_ZERO_BYTE_COST) % 2 ^ 64
          = a + (if b.val = 0 then 4 else 16) := by
      rw [hcost, Nat.mod_eq_of_lt]; omega
    rw [List.foldl_cons, hstep, ih _ (by omega), idealDataGas_cons]
    omega

/-- The wrapping data-gas fold over `n` copies of the byte `0x01`. -/
lemma data_gas_foldl_replicate (n : Nat) (a : Nat) (ha : a < 2 ^ 64) :
    (List.replicate n (1 : Fin 256)).foldl
        (fun acc byte =>
          (acc + if byte.val = 0 then ZERO_BYTE_COST else NON_ZERO_BYTE_COST)
            % 2 ^ 64)
        a
      = (a + 16 * n) % 2 ^ 64 := by
  induction n generalizing a with
  | zero => simpa using (Nat.mod_eq_of_lt ha).symm
  | succ n ih =>
    rw [List.replicate_succ, List.foldl_cons]
    have h1 : ((1 : Fin 256)).val = 1 := rfl
    have hstep :
        (a + if ((1 : Fin 256)).val = 0 then ZERO_BYTE_COST else NON_ZERO_BYTE_COST)
          = a + 16 := by
      simp [h1, NON_ZERO_BYTE_COST]
    rw [hstep, ih _ (Nat.mod_lt _ (by norm_num)), Nat.mod_add_mod]
    congr 1
    ring

/-- Witness for `account_is_empty_iff` on a concrete non-empty
account. -/
theorem account_is_empty_iff_witness :
    Account.is_empty 5
        ⟨⟨1, 0, 0, 5, 0⟩, [], AccountStatus.Loaded⟩ = false :=
  (account_is_empty_iff 5 ⟨⟨1, 0, 0, 5, 0⟩, [], AccountStatus.Loaded⟩).2
    (Or.inl (by decide))

/-- C9: `mark_warm()` returns `true` iff the cold flag was set before the
call, always leaves the cold flag cleared, and an immediate second call
returns `false` and leaves the state unchanged — both on accounts and on
storage slots. -/
theorem mark_warm_spec (a : Account) (s : EvmStorageSlot) :
    ((a.mark_warm.1 = true ↔ a.status.cold = true) ∧
      a.mark_warm.2.status.cold = false ∧
      a.mark_warm.2.mark_warm = (false, a.mark_warm.2)) ∧
    ((s.mark_warm.1 = true ↔ s.is_cold = true) ∧
      s.mark_warm.2.is_cold = false ∧
      s.mark_warm.2.mark_warm = (false, s.mark_warm.2)) := by
  refine ⟨⟨?_, ?_, ?_⟩, ⟨?_, ?_, ?_⟩⟩ <;>
    simp [Account.mark_warm, EvmStorageSlot.mark_warm] <;>
    by_cases h : a.status.cold <;> simp [h]

/-! ## Claim theorems for the fee oracle -/

/-- C5 (amended): for every payload whose ideal data-gas sum stays below
the `u64` bound — in particular every payload of fewer than `2 ^ 60`
bytes — `calculate_tx_l1_cost` equals the specification formula
`((data_gas + overhead + 64) sat-add, sat-mul base fee, sat-mul scalar)
/ 1,000,000,000` with `data_gas` the exact 4-per-zero/16-per-non-zero
sum; and on the empty payload with overhead 0, base fee 1, scalar 1 the
result truncates to 0. The computation is a total function (never
panics). -/
theorem calculate_tx_l1_cost_spec (self : L1BlockInfo) (input : List (Fin 256))
    (h : 16 * input.length < 2 ^ 64) :
    self.calculate_tx_l1_cost input = specL1Cost self input ∧
    L1BlockInfo.calculate_tx_l1_cost ⟨1, 0, 1⟩ [] = 0 := by
  constructor
  · have hsum : idealDataGas input < 2 ^ 64 :=
      lt_of_le_of_lt (idealDataGas_le input) h
    have hdg : self.data_gas input = idealDataGas input := by
      simpa using data_gas_foldl_eq input 0 (by omega)
    simp only [L1BlockInfo.calculate_tx_l1_cost, specL1Cost, hdg,
      TX_L1_COMMIT_EXTRA_COST, TX_L1_FEE_PRECISION]
  · rfl

/-- Witness for `calculate_tx_l1_cost_spec` at a concrete payload. -/
theorem calculate_tx_l1_cost_spec_witness :
    L1BlockInfo.calculate_tx_l1_cost ⟨2, 3, 5⟩ [0, 7] =
      specL1Cost ⟨2, 3, 5⟩ [0, 7] :=
  (calculate_tx_l1_cost_spec ⟨2, 3, 5⟩ [0, 7] (by norm_num)).1

/-- C5 counterexample: on a payload of `2 ^ 60` non-zero bytes the `u64`
data-gas accumulator wraps to 0, so the code computes 0 while the
specification formula (with the exact per-byte sum, which is `2 ^ 64`)
gives 18446744073; the claim's equality fails on this payload. -/
theorem calculate_tx_l1_cost_counterexample :
    L1BlockInfo.calculate_tx_l1_cost ⟨1, 0, 1⟩ (List.replicate (2 ^ 60) 1) = 0 ∧
    specL1Cost ⟨1, 0, 1⟩ (List.replicate (2 ^ 60) 1) = 18446744073 := by
  constructor
  · have hfold := data_gas_foldl_replicate (2 ^ 60) 0 (by norm_num)
    have hdg : (L1BlockInfo.mk 1 0 1).data_gas (List.replicate (2 ^ 60) 1) = 0 := by
      rw [L1BlockInfo.data_gas, hfold]
      norm_num
    rw [L1BlockInfo.calculate_tx_l1_cost, hdg]
    norm_num [satAdd256, satMul256, U256_MAX, TX_L1_COMMIT_EXTRA_COST,
      TX_L1_FEE_PRECISION]
  · rw [specL1Cost, idealDataGas_replicate]
    norm_num [satAdd256, satMul256, U256_MAX]

/-- C7: `L1BlockInfo::try_fetch` reads exactly slots 1, 2, 3 of the fixed
oracle address into the three fields in order; the first failing read's
error is returned verbatim, with no partially populated result; and the
outcome depends on the storage reader only at those three slots. -/
theorem try_fetch_spec {DBE : Type} (db db' : Nat → Nat → Except DBE Nat) :
    (∀ b o s,
      db L1_GAS_PRICE_ORACLE_ADDRESS L1_BASE_FEE_SLOT = .ok b →
      db L1_GAS_PRICE_ORACLE_ADDRESS L1_OVERHEAD_SLOT = .ok o →
      db L1_GAS_PRICE_ORACLE_ADDRESS L1_SCALAR_SLOT = .ok s →
      L1BlockInfo.try_fetch db = .ok ⟨b, o, s⟩) ∧
    (∀ e, db L1_GAS_PRICE_ORACLE_ADDRESS L1_BASE_FEE_SLOT = .error e →
      L1BlockInfo.try_fetch db = .error e) ∧
    (∀ b e,
      db L1_GAS_PRICE_ORACLE_ADDRESS L1_BASE_FEE_SLOT = .ok b →
      db L1_GAS_PRICE_ORACLE_ADDRESS L1_OVERHEAD_SLOT = .error e →
      L1BlockInfo.try_fetch db = .error e) ∧
    (∀ b o e,
      db L1_GAS_PRICE_ORACLE_ADDRESS L1_BASE_FEE_SLOT = .ok b →
      db L1_GAS_PRICE_ORACLE_ADDRESS L1_OVERHEAD_SLOT = .ok o →
      db L1_GAS_PRICE_ORACLE_ADDRESS L1_SCALAR_SLOT = .error e →
      L1BlockInfo.try_fetch db = .error e) ∧
    (db L1_GAS_PRICE_ORACLE_ADDRESS L1_BASE_FEE_SLOT
        = db' L1_GAS_PRICE_ORACLE_ADDRESS L1_BASE_FEE_SLOT →
      db L1_GAS_PRICE_ORACLE_ADDRESS L1_OVERHEAD_SLOT
        = db' L1_GAS_PRICE_ORACLE_ADDRESS L1_OVERHEAD_SLOT →
      db L1_GAS_PRICE_ORACLE_ADDRESS L1_SCALAR_SLOT
        = db' L1_GAS_PRICE_ORACLE_ADDRESS L1_SCALAR_SLOT →
      L1BlockInfo.try_fetch db = L1BlockInfo.try_fetch db') := by
  refine ⟨?_, ?_, ?_, ?_, ?_⟩
  · intro b o s h1 h2 h3
    simp [L1BlockInfo.try_fetch, h1, h2, h3]
  · intro e h1
    simp [L1BlockInfo.try_fetch, h1]
  · intro b e h1 h2
    simp [L1BlockInfo.try_fetch, h1, h2]
  · intro b o e h1 h2 h3
    simp [L1BlockInfo.try_fetch, h1, h2, h3]
  · intro h1 h2 h3
    simp [L1BlockInfo.try_fetch, h1, h2, h3]

/-- Witness for `try_fetch_spec` at a concrete storage reader. -/
theorem try_fetch_spec_witness :
    L1BlockInfo.try_fetch (fun _ slot => (.ok (10 * slot) : Except Unit Nat)) =
      .ok ⟨10, 20, 30⟩ :=
  (try_fetch_spec (fun _ slot => (.ok (10 * slot) : Except Unit Nat))
      (fun _ slot => (.ok (10 * slot) : Except Unit Nat))).1
    10 20 30 rfl rfl rfl

/-! ## Helper lemmas for the bytecode analyzer -/

lemma setAt_isSome (jumps : List AnalysisData) (i : Nat)
    (f : AnalysisData → AnalysisData) (h : i < jumps.length) :
    ∃ jumps', setAt jumps i f = some jumps' ∧ jumps'.length = jumps.length := by
  refine ⟨jumps.set i (f (jumps.get ⟨i, h⟩)), ?_, by simp⟩
  simp [setAt, List.getElem?_eq_getElem h]

lemma pushAdvance_two_le (v : Nat) (h96 : 96 ≤ v) (h256 : v < 256) :
    2 ≤ pushAdvance v := by
  unfold pushAdvance
  omega

/-- One-step unfolding of the first scan loop at positive fuel. -/
lemma analyzePhase1_succ (tbl : OpTable) (code : List (Fin 256))
    (fuel index first_gas_block : Nat) (jumps : List AnalysisData) :
    analyzePhase1 tbl code (fuel + 1) index first_gas_block jumps =
      if h : index < code.length then
        let opcode := code.get ⟨index, h⟩
        let info := tbl opcode
        let fgb := (first_gas_block + info.gas) % 2 ^ 32
        let index' := index + (if info.isPush then pushAdvance opcode.val else 1)
        if info.isGasBlockEnd then
          let block_start := index' - 1
          if info.isJump then
            match setAt jumps block_start AnalysisData.set_is_jump with
            | some jumps' => some (fgb, index', block_start, jumps')
            | none => none
          else
            some (fgb, index', block_start, jumps)
        else
          analyzePhase1 tbl code fuel index' fgb jumps
      else
        some (first_gas_block, index, 0, jumps) := rfl

/-- One-step unfolding of the second scan loop at positive fuel. -/
lemma analyzePhase2_succ (tbl : OpTable) (code : List (Fin 256))
    (fuel index block_start gas_in_block : Nat) (jumps : List AnalysisData) :
    analyzePhase2 tbl code (fuel + 1) index block_start gas_in_block jumps =
      if h : index < code.length then
        let opcode := code.get ⟨index, h⟩
        let info := tbl opcode
        let gib := (gas_in_block + info.gas) % 2 ^ 32
        if info.isGasBlockEnd then
          let afterFlag :=
            if info.isJump then setAt jumps index AnalysisData.set_is_jump
            else some jumps
          match afterFlag with
          | none => none
          | some jumps' =>
            match setAt jumps' block_start (fun d => d.set_gas_block gib) with
            | none => none
            | some jumps'' =>
              analyzePhase2 tbl code fuel (index + 1) index 0 jumps''
        else
          analyzePhase2 tbl code fuel
            (index + (if info.isPush then pushAdvance opcode.val else 1))
            block_start gib jumps
      else
        some (block_start, gas_in_block, jumps) := rfl

/-- Under `PushSane` and with enough fuel, the first scan loop succeeds,
preserves the table length, and returns a `block_start` in bounds
whenever the scan has not run off the end of the code. -/
lemma analyzePhase1_total (tbl : OpTable) (hsane : PushSane tbl)
    (code : List (Fin 256)) :
    ∀ (fuel index fgb : Nat) (jumps : List AnalysisData),
      code.length ≤ index + fuel → jumps.length = code.length →
      ∃ fgb' index' bs jumps',
        analyzePhase1 tbl code (fuel + 1) index fgb jumps
          = some (fgb', index', bs, jumps') ∧
        jumps'.length = code.length ∧
        (index' < code.length → bs < code.length) := by
  intro fuel
  induction fuel with
  | zero =>
    intro index fgb jumps hfuel hlen
    have hge : ¬ index < code.length := by omega
    exact ⟨fgb, index, 0, jumps,
      by rw [analyzePhase1_succ]; simp [hge], hlen, by omega⟩
  | succ fuel ih =>
    intro index fgb jumps hfuel hlen
    by_cases h : index < code.length
    · by_cases hend : (tbl (code.get ⟨index, h⟩)).isGasBlockEnd = true
      · have hnp : ¬ (tbl (code.get ⟨index, h⟩)).isPush = true := by
          intro hcp
          have hblk := (hsane _ hcp).1
          rw [hblk] at hend
          exact absurd hend (by simp)
        by_cases hj : (tbl (code.get ⟨index, h⟩)).isJump = true
        · obtain ⟨jumps', hset, hlen'⟩ :=
            setAt_isSome jumps index AnalysisData.set_is_jump (by omega)
          refine ⟨(fgb + (tbl (code.get ⟨index, h⟩)).gas) % 2 ^ 32,
            index + 1, index, jumps', ?_, by omega, fun _ => h⟩
          rw [analyzePhase1_succ]
          simp only [dif_pos h]
          rw [if_neg hnp, if_pos hend, if_pos hj]
          simp only [Nat.add_sub_cancel]
          rw [hset]
        · refine ⟨(fgb + (tbl (code.get ⟨index, h⟩)).gas) % 2 ^ 32,
            index + 1, index, jumps, ?_, hlen, fun _ => h⟩
          rw [analyzePhase1_succ]
          simp only [dif_pos h]
          rw [if_neg hnp, if_pos hend, if_neg hj]
          simp only [Nat.add_sub_cancel]
      · by_cases hp : (tbl (code.get ⟨index, h⟩)).isPush = true
        · have hadv := pushAdvance_two_le (code.get ⟨index, h⟩).val
            (hsane _ hp).2 (code.get ⟨index, h⟩).isLt
          obtain ⟨fgb', index', bs, jumps', heq, hlen', hbs⟩ :=
            ih (index + pushAdvance (code.get ⟨index, h⟩).val)
              ((fgb + (tbl (code.get ⟨index, h⟩)).gas) % 2 ^ 32) jumps
              (by omega) hlen
          refine ⟨fgb', index', bs, jumps', ?_, hlen', hbs⟩
          rw [analyzePhase1_succ]
          simp only [dif_pos h]
          rw [if_pos hp, if_neg hend, heq]
        · obtain ⟨fgb', index', bs, jumps', heq, hlen', hbs⟩ :=
            ih (index + 1)
              ((fgb + (tbl (code.get ⟨index, h⟩)).gas) % 2 ^ 32) jumps
              (by omega) hlen
          refine ⟨fgb', index', bs, jumps', ?_, hlen', hbs⟩
          rw [analyzePhase1_succ]
          simp only [dif_pos h]
          rw [if_neg hp, if_neg hend, heq]
    · exact ⟨fgb, index, 0, jumps,
        by rw [analyzePhase1_succ]; simp [h], hlen, by omega⟩

/-- Under `PushSane` and with enough fuel, the second scan loop succeeds,
preserves the table length, and keeps `block_start` in bounds whenever
the open block has accumulated gas. -/
lemma analyzePhase2_total (tbl : OpTable) (hsane : PushSane tbl)
    (code : List (Fin 256)) :
    ∀ (fuel index bs gib : Nat) (jumps : List AnalysisData),
      code.length ≤ index + fuel → jumps.length = code.length →
      (index < code.length → bs < code.length) →
      (gib ≠ 0 → bs < code.length) →
      ∃ bs' gib' jumps',
        analyzePhase2 tbl code (fuel + 1) index bs gib jumps
          = some (bs', gib', jumps') ∧
        jumps'.length = code.length ∧
        (gib' ≠ 0 → bs' < code.length) := by
  intro fuel
  induction fuel with
  | zero =>
    intro index bs gib jumps hfuel hlen _ hgib
    have hge : ¬ index < code.length := by omega
    exact ⟨bs, gib, jumps, by rw [analyzePhase2_succ]; simp [hge], hlen, hgib⟩
  | succ fuel ih =>
    intro index bs gib jumps hfuel hlen hbs hgib
    by_cases h : index < code.length
    · have hbs' : bs < code.length := hbs h
      by_cases hend : (tbl (code.get ⟨index, h⟩)).isGasBlockEnd = true
      · by_cases hj : (tbl (code.get ⟨index, h⟩)).isJump = true
        · obtain ⟨jumpsA, hsetA, hlenA⟩ :=
            setAt_isSome jumps index AnalysisData.set_is_jump (by omega)
          obtain ⟨jumpsB, hsetB, hlenB⟩ :=
            setAt_isSome jumpsA bs
              (fun d => d.set_gas_block
                ((gib + (tbl (code.get ⟨index, h⟩)).gas) % 2 ^ 32))
              (by omega)
          obtain ⟨bs', gib', jumps', heq, hlen', hgib'⟩ :=
            ih (index + 1) index 0 jumpsB (by omega) (by omega)
              (fun _ => h) (by omega)
          refine ⟨bs', gib', jumps', ?_, hlen', hgib'⟩
          rw [analyzePhase2_succ]
          simp only [dif_pos h]
          rw [if_pos hend, if_pos hj, hsetA]
          simp only []
          rw [hsetB]
          exact heq
        · obtain ⟨jumpsB, hsetB, hlenB⟩ :=
            setAt_isSome jumps bs
              (fun d => d.set_gas_block
                ((gib + (tbl (code.get ⟨index, h⟩)).gas) % 2 ^ 32))
              (by omega)
          obtain ⟨bs', gib', jumps', heq, hlen', hgib'⟩ :=
            ih (index + 1) index 0 jumpsB (by omega) (by omega)
              (fun _ => h) (by omega)
          refine ⟨bs', gib', jumps', ?_, hlen', hgib'⟩
          rw [analyzePhase2_succ]
          simp only [dif_pos h]
          rw [if_pos hend, if_neg hj]
          simp only []
          rw [hsetB]
          exact heq
      · by_cases hp : (tbl (code.get ⟨index, h⟩)).isPush = true
        · have hadv := pushAdvance_two_le (code.get ⟨index, h⟩).val
            (hsane _ hp).2 (code.get ⟨index, h⟩).isLt
          obtain ⟨bs', gib', jumps', heq, hlen', hgib'⟩ :=
            ih (index + pushAdvance (code.get ⟨index, h⟩).val) bs
              ((gib + (tbl (code.get ⟨index, h⟩)).gas) % 2 ^ 32) jumps
              (by omega) hlen (fun _ => hbs') (fun _ => hbs')
          refine ⟨bs', gib', jumps', ?_, hlen', hgib'⟩
          rw [analyzePhase2_succ]
          simp only [dif_pos h]
          rw [if_neg hend, if_pos hp, heq]
        · obtain ⟨bs', gib', jumps', heq, hlen', hgib'⟩ :=
            ih (index + 1) bs
              ((gib + (tbl (code.get ⟨index, h⟩)).gas) % 2 ^ 32) jumps
              (by omega) hlen (fun _ => hbs') (fun _ => hbs')
          refine ⟨bs', gib', jumps', ?_, hlen', hgib'⟩
          rw [analyzePhase2_succ]
          simp only [dif_pos h]
          rw [if_neg hend, if_neg hp, heq]
    · exact ⟨bs, gib, jumps,
        by rw [analyzePhase2_succ]; simp [h], hlen, hgib⟩

/-- Under `PushSane`, `analyze` succeeds on every byte sequence and its
table has exactly one entry per byte of the input buffer. -/
lemma analyze_total (tbl : OpTable) (hsane : PushSane tbl)
    (code : List (Fin 256)) :
    ∃ jumptable, analyze tbl code = some jumptable ∧
      jumptable.analysis.length = code.length := by
  obtain ⟨fgb, index1, bs1, jumps1, h1, hlen1, hbs1⟩ :=
    analyzePhase1_total tbl hsane code code.length 0 0
      (List.replicate code.length AnalysisData.noneData)
      (by omega) (by simp)
  obtain ⟨bs2, gib2, jumps2, h2, hlen2, hgib2⟩ :=
    analyzePhase2_total tbl hsane code code.length index1 bs1 0 jumps1
      (by omega) hlen1 hbs1 (by omega)
  by_cases hz : gib2 = 0
  · refine ⟨⟨fgb, jumps2⟩, ?_, hlen2⟩
    simp only [analyze, h1, h2]
    simp [hz]
  · obtain ⟨jumps3, hset3, hlen3⟩ :=
      setAt_isSome jumps2 bs2
        (fun d => d.set_gas_block gib2) (by rw [hlen2]; exact hgib2 hz)
    refine ⟨⟨fgb, jumps3⟩, ?_, by simp only []; omega⟩
    simp only [analyze, h1, h2]
    simp [hz, hset3]

/-! ## Claim theorems for the bytecode analyzer -/

/-- C6 (amended): analysis is a total function — it terminates and every
internal access is in bounds — for every byte sequence and every opcode
table with one entry per opcode value in which, additionally, no
push-class opcode ends a gas block and every push-class opcode lies in
the `PUSH1..PUSH32` value range (true of every real fork table). -/
theorem analyze_total_of_pushSane (tbl : OpTable) (code : List (Fin 256))
    (hsane : PushSane tbl) :
    ∃ jumptable, analyze tbl code = some jumptable :=
  (analyze_total tbl hsane code).imp fun _ h => h.1

/-- Witness for `analyze_total_of_pushSane` on the real fork table. -/
theorem analyze_total_of_pushSane_witness :
    ∃ jumptable, analyze realTable [0x60, 0x05, 0x56, 0x5b, 0x00] = some jumptable :=
  analyze_total_of_pushSane realTable [0x60, 0x05, 0x56, 0x5b, 0x00] (by decide)

/-- C6 counterexample: an opcode table with one entry per possible opcode
value — "valid" in the claim's sense — under which analysis of the
one-byte code `[0x00]` fails: the table classifies opcode `0x00` as both
push-class and gas-block-ending, the scan position advances past the end
of the code, and the jump-table write at `block_start` is out of bounds
(an `unwrap` panic in the source). -/
theorem analyze_fails_on_pathological_table :
    analyze badTable [0x00] = Option.none ∧
    badTable 0x00 = ⟨0, true, true, true⟩ := by
  constructor <;> rfl

/-- C1 (amended): for every byte sequence, `to_checked` followed by
`to_analysed` (under any push-sane opcode table) succeeds and yields the
Analysed state carrying the logical code length, but the jump/gas
analysis table has one entry per byte of the *padded* buffer — the
logical length plus the 33 padding bytes — not the logical length. -/
theorem to_analysed_table_len (tbl : OpTable) (bytes : List (Fin 256))
    (hsane : PushSane tbl) :
    ∃ jumptable,
      (Bytecode.new_raw bytes).to_checked.to_analysed tbl =
        some ⟨bytes ++ List.replicate 33 0, .Analysed bytes.length jumptable⟩ ∧
      jumptable.analysis.length = bytes.length + 33 := by
  obtain ⟨jt, hjt, hlen⟩ :=
    analyze_total tbl hsane (bytes ++ List.replicate 33 (0 : Fin 256))
  refine ⟨jt, ?_, by simpa using hlen⟩
  simp only [Bytecode.new_raw, Bytecode.to_checked, Bytecode.to_analysed, hjt,
    Option.map_some']

/-- Witness for `to_analysed_table_len` on the real fork table. -/
theorem to_analysed_table_len_witness :
    ∃ jumptable,
      (Bytecode.new_raw [0x5b]).to_checked.to_analysed realTable =
        some ⟨[0x5b] ++ List.replicate 33 0, .Analysed 1 jumptable⟩ ∧
      jumptable.analysis.length = 1 + 33 :=
  to_analysed_table_len realTable [0x5b] (by decide)

/-- C1 counterexample: on the empty byte sequence (logical length 0),
`to_checked` then `to_analysed` produces an analysis table with 33
entries — the padded buffer length — not 0 as the claim states. -/
theorem to_analysed_table_len_counterexample :
    (Bytecode.new_raw []).to_checked.to_analysed realTable =
      some ⟨List.replicate 33 0,
        .Analysed 0 ⟨0, List.replicate 33 AnalysisData.noneData⟩⟩ ∧
    (List.replicate 33 AnalysisData.noneData).length = 33 ∧
    (Bytecode.new_raw ([] : List (Fin 256))).len = 0 := by
  refine ⟨by decide, by decide, rfl⟩

/-- C2: a push-class, non-block-ending instruction advances either scan
loop by its declared operand width plus one (`(opcode - PUSH1) + 2`),
skipping the operand bytes without visiting them as instructions; and on
the code `PUSH1 0x05, JUMP, JUMPDEST, STOP` the position of `JUMPDEST`
(3) is the only position flagged as a valid jump destination — in
particular the push-operand byte at position 1, whose value 0x05 is
irrelevant, is not flagged. -/
theorem analyze_push_skip (tbl : OpTable) (code : List (Fin 256))
    (fuel index fgb bs gib : Nat) (jumps : List AnalysisData) (opcode : Fin 256)
    (hop : code.get? index = some opcode)
    (hpush : (tbl opcode).isPush = true)
    (hend : (tbl opcode).isGasBlockEnd = false) :
    (analyzePhase1 tbl code (fuel + 1) index fgb jumps =
      analyzePhase1 tbl code fuel (index + pushAdvance opcode.val)
        ((fgb + (tbl opcode).gas) % 2 ^ 32) jumps) ∧
    (analyzePhase2 tbl code (fuel + 1) index bs gib jumps =
      analyzePhase2 tbl code fuel (index + pushAdvance opcode.val) bs
        ((gib + (tbl opcode).gas) % 2 ^ 32) jumps) ∧
    jumpdestFlags realTable [0x60, 0x05, 0x56, 0x5b, 0x00] =
      some (List.replicate 3 false ++ true :: List.replicate 34 false) := by
  obtain ⟨h, hget⟩ := List.get?_eq_some.mp hop
  refine ⟨?_, ?_, by decide⟩
  · rw [analyzePhase1_succ]
    simp only [dif_pos h, hget]
    rw [if_neg (by rw [hend]; exact Bool.false_ne_true), if_pos hpush]
  · rw [analyzePhase2_succ]
    simp only [dif_pos h, hget]
    rw [if_neg (by rw [hend]; exact Bool.false_ne_true), if_pos hpush]

/-- Witness for `analyze_push_skip` at `PUSH1` in a concrete code. -/
theorem analyze_push_skip_witness :
    (analyzePhase1 realTable [0x60, 0x05] 1 0 0 [] =
      analyzePhase1 realTable [0x60, 0x05] 0 (0 + pushAdvance (0x60 : Fin 256).val)
        ((0 + (realTable 0x60).gas) % 2 ^ 32) []) ∧
    (analyzePhase2 realTable [0x60, 0x05] 1 0 0 0 [] =
      analyzePhase2 realTable [0x60, 0x05] 0 (0 + pushAdvance (0x60 : Fin 256).val)
        0 ((0 + (realTable 0x60).gas) % 2 ^ 32) []) ∧
    jumpdestFlags realTable [0x60, 0x05, 0x56, 0x5b, 0x00] =
      some (List.replicate 3 false ++ true :: List.replicate 34 false) :=
  analyze_push_skip realTable [0x60, 0x05] 0 0 0 0 0 [] 0x60
    (by decide) (by decide) (by decide)

/-! ## Claim theorems for the settlement handlers -/

/-- C3 (amended): for ordinary transactions, `deduct_caller` first
applies the mainnet deduction unconditionally — saturating subtraction of
`gas_limit × effective_gas_price`, nonce increment for call-type
transactions, touch — with no balance check of its own (the gas-cost
check is pre-validation's), and then returns the insufficient-funds error
exactly when the L1 data fee exceeds the *post-deduction* balance; on
that error path the gas-cost deduction, nonce increment and touch have
already been applied to the journalled account (discarding them is the
surrounding journal's job, not this function's). -/
theorem deduct_caller_spec (ctx : Context) (rlp : List (Fin 256))
    (l1info : L1BlockInfo)
    (hmsg : ctx.env.tx.scroll.is_l1_msg = false)
    (hrlp : ctx.env.tx.scroll.rlp_bytes = some rlp)
    (hinfo : ctx.l1_block_info = some l1info) :
    (l1info.calculate_tx_l1_cost rlp >
        (deduct_caller_inner ctx.env ctx.caller_account).info.balance →
      deduct_caller ctx =
        some (.error (.Transaction (.LackOfFundForMaxFee
          (l1info.calculate_tx_l1_cost rlp)
          (deduct_caller_inner ctx.env ctx.caller_account).info.balance)))) ∧
    (¬ l1info.calculate_tx_l1_cost rlp >
        (deduct_caller_inner ctx.env ctx.caller_account).info.balance →
      deduct_caller ctx =
        some (.ok { ctx with caller_account :=
          { deduct_caller_inner ctx.env ctx.caller_account with
              info.balance :=
                (deduct_caller_inner ctx.env ctx.caller_account).info.balance
                  - l1info.calculate_tx_l1_cost rlp } })) := by
  constructor <;> intro hcmp <;>
    simp [deduct_caller, hmsg, hrlp, hinfo, hcmp]

/-- Witness for `deduct_caller_spec`: a context whose L1 fee (64) exceeds
the post-deduction balance (0), hitting the insufficient-funds error. -/
theorem deduct_caller_spec_witness :
    deduct_caller
        { ctxInsufficient with l1_block_info := some ⟨1000000000, 0, 1⟩ } =
      some (.error (.Transaction (.LackOfFundForMaxFee 64 0))) := by
  have h := (deduct_caller_spec
      { ctxInsufficient with l1_block_info := some ⟨1000000000, 0, 1⟩ }
      [] ⟨1000000000, 0, 1⟩ rfl rfl rfl).1 (by decide)
  simpa using h

/-- C3 counterexample: balance 40, gas limit 10, effective gas price 5,
zero L1 fee — the claim's total cost 50 exceeds the balance, yet
`deduct_caller` returns success and has reduced the balance
(saturating) to 0, bumped the nonce to 1 and marked the account touched:
no insufficient-funds error is raised for the gas-cost part, and the
mutation is not withheld. -/
theorem deduct_caller_counterexample :
    ctxInsufficient.env.tx.gas_limit * ctxInsufficient.env.effective_gas_price
        = 50 ∧
    ctxInsufficient.caller_account.info.balance = 40 ∧
    (ctxInsufficient.l1_block_info.map
        (fun l1info => l1info.calculate_tx_l1_cost [])) = some 0 ∧
    deduct_caller ctxInsufficient =
      some (.ok { ctxInsufficient with caller_account :=
        { info := { balance := 0, nonce := 1, code_size := 0, code_hash := 0,
                    keccak_code_hash := 0 }
          storage := []
          status := { created := false, selfDestructed := false,
                      touched := true, loadedAsNotExisting := false,
                      cold := false } } }) := by
  refine ⟨rfl, rfl, rfl, rfl⟩

/-- C4 (amended): for ordinary transactions, `reward_beneficiary` marks
the beneficiary touched (even when the credited amount is zero) and
increases its balance by
`effective_gas_price * (gas_spent − gas_refunded)` saturating-plus the L1
cost recomputed from the same RLP payload; for privileged
rollup-originated messages it performs no credit and no touch at all —
the whole step, including the touch, is skipped. The final conjunct
relates the wrapping `u64` subtraction to the plain difference whenever
the refund does not exceed the spent gas. -/
theorem reward_beneficiary_spec (ctx : Context) (gas : Gas)
    (rlp : List (Fin 256)) (l1info : L1BlockInfo)
    (hrlp : ctx.env.tx.scroll.rlp_bytes = some rlp)
    (hinfo : ctx.l1_block_info = some l1info) :
    (ctx.env.tx.scroll.is_l1_msg = false →
      reward_beneficiary ctx gas =
        .ok { ctx with coinbase_account :=
          { ctx.coinbase_account.mark_touch with
              info.balance :=
                satAdd256
                  (satAdd256 ctx.coinbase_account.info.balance
                    (wrapMul256 ctx.env.effective_gas_price
                      (wrapSub64 gas.spent (i64_as_u64 gas.refunded))))
                  (l1info.calculate_tx_l1_cost rlp) } }) ∧
    (ctx.env.tx.scroll.is_l1_msg = true →
      reward_beneficiary ctx gas = .ok ctx) ∧
    (0 ≤ gas.refunded → gas.refunded.toNat ≤ gas.spent →
      gas.spent < 2 ^ 64 →
      wrapSub64 gas.spent (i64_as_u64 gas.refunded)
        = gas.spent - gas.refunded.toNat) := by
  refine ⟨?_, ?_, ?_⟩
  · intro hmsg
    simp [reward_beneficiary, hmsg, hrlp, hinfo, Account.mark_touch]
  · intro hmsg
    simp [reward_beneficiary, hmsg]
  · intro hpos hle hlt
    unfold wrapSub64 i64_as_u64
    omega

/-- Witness for `reward_beneficiary_spec` on a concrete ordinary
transaction. -/
theorem reward_beneficiary_spec_witness :
    reward_beneficiary ctxInsufficient ⟨10, 0⟩ =
      .ok { ctxInsufficient with coinbase_account :=
        { ctxInsufficient.coinbase_account.mark_touch with
            info.balance :=
              satAdd256
                (satAdd256 ctxInsufficient.coinbase_account.info.balance
                  (wrapMul256 5 (wrapSub64 10 (i64_as_u64 0))))
                ((L1BlockInfo.mk 0 0 0).calculate_tx_l1_cost []) } } :=
  (reward_beneficiary_spec ctxInsufficient ⟨10, 0⟩ [] ⟨0, 0, 0⟩ rfl rfl).1 rfl

/-- C4 counterexample: a privileged L1 message with gas spent 10,
refund 0 and effective gas price 5 — the claim requires the beneficiary
to be credited 50 and marked touched, but `reward_beneficiary` returns
the context entirely unchanged: no credit and no touch. -/
theorem reward_beneficiary_counterexample :
    ctxL1Msg.env.tx.scroll.is_l1_msg = true ∧
    ctxL1Msg.env.effective_gas_price * 10 = 50 ∧
    reward_beneficiary ctxL1Msg ⟨10, 0⟩ = .ok ctxL1Msg ∧
    ctxL1Msg.coinbase_account.status.touched = false := by
  refine ⟨rfl, rfl, rfl, rfl⟩

/-! ## Claim theorems for the disabled precompiles -/

/-- C10: the disabled-precompile stub returns the `OutOfGas` error for
every input and every gas limit — it never produces output or a gas
amount — and it is the function registered for `RIPEMD160` at address
0x03, `BLAKE2F` at 0x09 and `POINT_EVALUATION` at 0x0A. -/
theorem disable_run_spec (input : List (Fin 256)) (gas_limit : Nat) :
    disable_run input gas_limit = .error .OutOfGas ∧
    RIPEMD160.address = 0x03 ∧
    BLAKE2F.address = 0x09 ∧
    POINT_EVALUATION.address = 0x0A ∧
    RIPEMD160.precompile = disable_run ∧
    BLAKE2F.precompile = disable_run ∧
    POINT_EVALUATION.precompile = disable_run :=
  ⟨rfl, rfl, rfl, rfl, rfl, rfl, rfl⟩

end Revm
